import Mathlib

/-!
# go-weather: a shallow embedding of `main.go`

The program is a two-route HTTP server.  Its own code is glue around the Go
standard library, so the embedding has two layers:

* the collaborators the program cannot see into (the file system, the upstream
  weather API, the JSON scanner and the number/string literal printers) are
  parameters, gathered in `World` and `JSON`; for the one claim that is about
  what the JSON library computes, `goJSON` is a model of `encoding/json` and of
  the `float64` conversions of `strconv` for the two records of the program;
* everything the program itself decides (which file is read, which URL is
  requested, the order of the steps, what is returned at each early return, how
  the path is cut, what is written to the response) is translated line by line;
* the small library functions whose behaviour shows in the response
  (`strings.SplitN`, `ResponseWriter.Write` and `WriteHeader`, `http.Error`,
  `json.Encoder.Encode`, the URL handling of `http.Get`) are written out as the
  Go library implements them.

Go functions returning `(T, error)` are modelled as pairs `T × Option GoError`,
`nil` being `none`, so that the value returned next to an error is visible.
-/

namespace GoWeather

/-! ## Go strings and `strings.SplitN` -/

/-- Byte length `len(s)` of a Go string, the sum of the UTF-8 sizes of its characters. -/
def len (s : List Char) : Nat :=
  (s.map Char.utf8Size).sum

/-- Search of `strings.Index`: `i` is the offset of `s` inside the string being searched.
Offsets count characters, and so do the cuts made at them. -/
def indexFrom (sep : List Char) : List Char → Nat → Int
  | [], i => if sep = [] then (i : Int) else -1
  | c :: cs, i => if sep.isPrefixOf (c :: cs) then (i : Int) else indexFrom sep cs (i + 1)

/-- The function `strings.Index(s, sep)`: offset of the first occurrence of `sep` in `s`,
or `-1` when there is none. -/
def Index (s sep : List Char) : Int :=
  indexFrom sep s 0

/-- Count of non-overlapping occurrences of `sep` in `s`, as `strings.Count` does it for a
non-empty `sep`; `fuel` bounds the number of search steps. -/
def countFrom (sep : List Char) : Nat → List Char → Nat
  | 0, _ => 0
  | fuel + 1, s =>
    if Index s sep < 0 then 0
    else 1 + countFrom sep fuel (s.drop ((Index s sep).toNat + sep.length))

/-- The function `strings.Count(s, sep)`; for an empty `sep` it is the number of characters
plus one. -/
def Count (s sep : List Char) : Nat :=
  if sep = [] then s.length + 1 else countFrom sep s.length s

/-- The helper `explode(s, n)` of package `strings`: `s` cut into single characters, at most
`n` pieces, the last piece being the unsplit rest. -/
def explode : List Char → Nat → List (List Char)
  | [], _ => []
  | _ :: _, 0 => []
  | c :: cs, n + 1 => if n = 0 ∨ cs = [] then [c :: cs] else [c] :: explode cs n

/-- The loop of `genSplit`: `k` is the number of cuts still allowed (`n - 1 - i`). -/
def splitLoop (sep : List Char) : Nat → List Char → List (List Char)
  | 0, s => [s]
  | k + 1, s =>
    if Index s sep < 0 then [s]
    else s.take (Index s sep).toNat :: splitLoop sep k (s.drop ((Index s sep).toNat + sep.length))

/-- The function `genSplit(s, sep, 0, n)` of package `strings`, on character lists. -/
def genSplit (s sep : List Char) (n : Int) : List (List Char) :=
  if n = 0 then []
  else if sep = [] then
    explode s (if n < 0 then s.length else min n.toNat s.length)
  else
    let n1 : Nat := if n < 0 then Count s sep + 1 else n.toNat
    let n2 : Nat := if n1 > len s + 1 then len s + 1 else n1
    splitLoop sep (n2 - 1) s

/-- The function `strings.SplitN(s, sep, n)`. -/
def SplitN (s sep : String) (n : Int) : List String :=
  (genSplit s.data sep.data n).map String.mk

/-! ## Errors, records and the collaborators -/

/-- The three kinds of error the program can meet. -/
inductive ErrKind where
  | fileRead
  | jsonDecode
  | network
  deriving DecidableEq

/-- A Go `error` value: its kind (the dynamic type) and the text `Error()` returns. -/
structure GoError where
  kind : ErrKind
  msg : String
  deriving DecidableEq

/-- The method `Error()` of an error value. -/
def GoError.Error (e : GoError) : String :=
  e.msg

/-- A Go `float64`, kept as its IEEE-754 bit pattern: the program never computes with it, it
only carries it from the JSON decoder to the JSON encoder. -/
structure float64 where
  bits : Nat
  deriving DecidableEq

/-- The record `apiConfigData` (lines 11-13). -/
structure apiConfigData where
  OpenWeatherMapApiKey : String
  deriving DecidableEq

/-- The anonymous struct of the field `Main` of `weatherData` (lines 18-20). -/
structure weatherMain where
  Kelvin : float64
  deriving DecidableEq

/-- The record `weatherData` (lines 16-21). -/
structure weatherData where
  Name : String
  Main : weatherMain
  deriving DecidableEq

/-- The zero value `apiConfigData{}`. -/
def apiConfigData.zero : apiConfigData :=
  ⟨""⟩

/-- The zero value `weatherData{}`: empty name, temperature `+0.0`. -/
def weatherData.zero : weatherData :=
  ⟨"", ⟨⟨0⟩⟩⟩

/-- An upstream `http.Response`, as far as the program can observe one. -/
structure Response where
  StatusCode : Nat
  Body : String
  deriving DecidableEq

/-- The outside world of one request: the file system behind `os.ReadFile` and the network
behind `http.Get`. -/
structure World where
  ReadFile : String → String × Option GoError
  Get : String → Response × Option GoError

/-- The parts of `encoding/json` the program relies on.  `unmarshalConfig b c` is
`json.Unmarshal(b, &c)` and `decodeWeather body d` is `json.NewDecoder(body).Decode(&d)`:
both return the record as the call left it, next to the error.  `quote` prints a Go string as
a JSON string literal and `number` prints a `float64` as a JSON number, failing on NaN and
the infinities. -/
structure JSON where
  unmarshalConfig : String → apiConfigData → apiConfigData × Option GoError
  decodeWeather : String → weatherData → weatherData × Option GoError
  quote : String → String
  number : float64 → String × Option GoError

/-- The calls a request makes into the outside world, in order, each with its argument:
`os.ReadFile(name)` and `http.Get(url)`. -/
inductive Event where
  | readFile (name : String)
  | httpGet (url : String)
  deriving DecidableEq

/-! ## The response writer -/

/-- The `http.ResponseWriter` the server hands to a handler, as a recorder of what the client
receives: the method of the request being answered (the server's writer keeps its request),
the header map the handler edits, whether the status line has gone out, with which code and
which headers, and the body sent so far.  Headers the server adds by itself (`Date`,
`Content-Length`, a sniffed `Content-Type`) are not part of the record. -/
structure ResponseWriter where
  method : String
  header : List (String × String)
  wroteHeader : Bool
  status : Nat
  sentHeader : List (String × String)
  body : String
  deriving DecidableEq

/-- A fresh writer for a request with the given method. -/
def ResponseWriter.new (method : String) : ResponseWriter :=
  ⟨method, [], false, 0, [], ""⟩

/-- The call `h.Del(key)` on the header map. -/
def headerDel (h : List (String × String)) (key : String) : List (String × String) :=
  h.filter (fun kv => kv.1 != key)

/-- The call `h.Set(key, value)` on the header map (the keys this program uses are already in
canonical form). -/
def headerSet (h : List (String × String)) (key value : String) : List (String × String) :=
  headerDel h key ++ [(key, value)]

/-- The call `h.Get(key)` on a header map: the value, or the empty string. -/
def headerGet (h : List (String × String)) (key : String) : String :=
  match h.find? (fun kv => kv.1 == key) with
  | some kv => kv.2
  | none => ""

/-- The call `w.Header().Set(key, value)`. -/
def ResponseWriter.SetHeader (w : ResponseWriter) (key value : String) : ResponseWriter :=
  { w with header := headerSet w.header key value }

/-- The call `w.Header().Del(key)`. -/
def ResponseWriter.DelHeader (w : ResponseWriter) (key : String) : ResponseWriter :=
  { w with header := headerDel w.header key }

/-- The call `w.WriteHeader(code)`: the first call fixes the status and the headers (the
program only ever passes 200 and 500). -/
def ResponseWriter.WriteHeader (w : ResponseWriter) (code : Nat) : ResponseWriter :=
  if w.wroteHeader then w
  else { w with wroteHeader := true, status := code, sentHeader := w.header }

/-- The function `bodyAllowedForStatus` of `net/http`: no body under 1xx, 204 and 304. -/
def bodyAllowedForStatus (status : Nat) : Bool :=
  !((100 ≤ status && status ≤ 199) || status == 204 || status == 304)

/-- The call `w.Write(b)` on the server's writer: an implicit `WriteHeader(200)` when none
was made; then the bytes go out, unless the status allows no body or the request is a `HEAD`
request, whose writes the server swallows. -/
def ResponseWriter.Write (w : ResponseWriter) (b : String) : ResponseWriter :=
  let w1 := w.WriteHeader 200
  if !bodyAllowedForStatus w1.status then w1
  else if w1.method = "HEAD" then w1
  else { w1 with body := w1.body ++ b }

/-- Status code of the response the client receives: 200 when the handler never set one. -/
def ResponseWriter.Code (w : ResponseWriter) : Nat :=
  if w.wroteHeader then w.status else 200

/-- Headers of the response the client receives. -/
def ResponseWriter.Headers (w : ResponseWriter) : List (String × String) :=
  if w.wroteHeader then w.sentHeader else w.header

/-- The constant `http.StatusInternalServerError`. -/
def StatusInternalServerError : Nat := 500

/-- The function `http.Error(w, error, code)`: drops `Content-Length`, sets the plain-text
content type and `nosniff`, writes the status, then prints the message with
`fmt.Fprintln`, that is followed by a newline. -/
def Error (w : ResponseWriter) (error : String) (code : Nat) : ResponseWriter :=
  let w1 := w.DelHeader "Content-Length"
  let w2 := w1.SetHeader "Content-Type" "text/plain; charset=utf-8"
  let w3 := w2.SetHeader "X-Content-Type-Options" "nosniff"
  let w4 := w3.WriteHeader code
  w4.Write (error ++ "\n")

/-- The JSON text `json.Marshal` produces for a `weatherData`, read off the struct tags of
lines 16-21: the fields in declaration order under the keys `name`, `main` and `temp`,
without white space.  It fails exactly when the number cannot be printed. -/
def marshalWeather (J : JSON) (v : weatherData) : String × Option GoError :=
  match J.number v.Main.Kelvin with
  | (_, some e) => ("", some e)
  | (t, none) =>
    ("\x7b\"name\":" ++ J.quote v.Name ++ ",\"main\":\x7b\"temp\":" ++ t ++ "\x7d\x7d", none)

/-- The call `json.NewEncoder(w).Encode(v)`: the JSON text of `v` followed by a newline, in
one `Write`; nothing is written when marshalling fails. -/
def Encode (J : JSON) (w : ResponseWriter) (v : weatherData) : ResponseWriter × Option GoError :=
  match marshalWeather J v with
  | (_, some e) => (w, some e)
  | (b, none) => (w.Write (b ++ "\n"), none)

/-! ## The program -/

/-- An inbound `http.Request`, with the fields a handler could look at. -/
structure Request where
  Method : String
  Path : String
  Header : List (String × String)
  Body : String
  deriving DecidableEq

/-- The function `loadApiConfig` (lines 24-37). -/
def loadApiConfig (W : World) (J : JSON) (filename : String) (tr : List Event) :
    (apiConfigData × Option GoError) × List Event :=
  let tr1 := tr ++ [Event.readFile filename]
  match W.ReadFile filename with
  | (_, some err) => ((apiConfigData.zero, some err), tr1)
  | (bytes, none) =>
    match J.unmarshalConfig bytes apiConfigData.zero with
    | (_, some err) => ((apiConfigData.zero, some err), tr1)
    | (c, none) => ((c, none), tr1)

/-- The function `hello` (lines 40-42). -/
def hello (w : ResponseWriter) (_r : Request) : ResponseWriter :=
  w.Write "hello from go!"

/-- The URL of line 52, built from the loaded configuration and the city. -/
def weatherURL (apiConfig : apiConfigData) (city : String) : String :=
  "http://api.openweathermap.org/data/2.5/weather?APPID=" ++ apiConfig.OpenWeatherMapApiKey
    ++ "&q=" ++ city

/-- The function `query` (lines 45-65).  The deferred `resp.Body.Close()` changes nothing
that is returned and is left out of the event list. -/
def query (W : World) (J : JSON) (city : String) (tr : List Event) :
    (weatherData × Option GoError) × List Event :=
  match loadApiConfig W J ".apiConfig" tr with
  | ((_, some err), tr1) => ((weatherData.zero, some err), tr1)
  | ((apiConfig, none), tr1) =>
    let tr2 := tr1 ++ [Event.httpGet (weatherURL apiConfig city)]
    match W.Get (weatherURL apiConfig city) with
    | (_, some err) => ((weatherData.zero, some err), tr2)
    | (resp, none) =>
      match J.decodeWeather resp.Body weatherData.zero with
      | (_, some err) => ((weatherData.zero, some err), tr2)
      | (d, none) => ((d, none), tr2)

/-- Lines 77-86 of the weather handler: everything after the city has been cut out of the
path. -/
def weatherRespond (W : World) (J : JSON) (w : ResponseWriter) (city : String) :
    ResponseWriter × List Event :=
  match query W J city [] with
  | ((_, some err), tr) => (Error w err.Error StatusInternalServerError, tr)
  | ((data, none), tr) =>
    let w1 := w.SetHeader "Content-Type" "application/json; charset=utf-8"
    ((Encode J w1 data).1, tr)

/-- A run-time panic: the handler never returns a response. -/
inductive Panic where
  | indexOutOfRange (index length : Nat)
  deriving DecidableEq

/-- The weather handler, the closure of lines 73-87.  Indexing the result of `SplitN` at 2
panics when there are fewer than three pieces. -/
def weatherHandler (W : World) (J : JSON) (w : ResponseWriter) (r : Request) :
    Except Panic (ResponseWriter × List Event) :=
  match (SplitN r.Path "/" 3)[2]? with
  | none => Except.error (Panic.indexOutOfRange 2 (SplitN r.Path "/" 3).length)
  | some city => Except.ok (weatherRespond W J w city)

/-! ## What `http.Get` does with the URL string -/

/-- The check `stringContainsCTLByte` of `net/url`: a byte below 0x20, or 0x7f. -/
def stringContainsCTLByte (s : List Char) : Bool :=
  s.any (fun c => decide (c.toNat < 32) || decide (c.toNat = 127))

/-- The test `ishex` of `net/url`. -/
def ishex (c : Char) : Bool :=
  ('0' ≤ c && c ≤ '9') || ('a' ≤ c && c ≤ 'f') || ('A' ≤ c && c ≤ 'F')

/-- The first pass of `unescape` of `net/url` in fragment mode: every "%" must be followed
by two hexadecimal digits. -/
def validEscapes : Nat → List Char → Bool
  | 0, _ => true
  | _ + 1, [] => true
  | fuel + 1, c :: rest =>
    if c = '%' then
      match rest with
      | a :: b :: rest2 => ishex a && ishex b && validEscapes fuel rest2
      | _ => false
    else validEscapes fuel rest

/-- What `http.Get(rawURL)` asks the upstream for, for a `rawURL` that starts with the
literal of line 52 (scheme, host and path are then fixed and well-formed).  `url.Parse` cuts
the string at the first "#": the part before it is refused when it holds a control
character, the part after it (the fragment) is refused when it holds a malformed percent
escape, and is never sent.  The URL requested is the part before the "#", with its query
string as it stands; `none` means that `http.Get` fails before any request is made. -/
def requestedURL (rawURL : String) : Option String :=
  let u := rawURL.data.takeWhile (fun c => c != '#')
  let frag := (rawURL.data.dropWhile (fun c => c != '#')).drop 1
  if stringContainsCTLByte u then none
  else if !validEscapes frag.length frag then none
  else some (String.mk u)

/-! ## The three steps of the lookup, one by one -/

/-- Number of binary digits of `n`; `fuel` bounds the number of halvings. -/
def bitLen : Nat → Nat → Nat
  | 0, _ => 0
  | fuel + 1, n => if n = 0 then 0 else 1 + bitLen fuel (n / 2)

/-- The `float64` nearest to the positive fraction `num / den`, ties going to the even
significand, as a significand `q < 2 ^ 53` and an exponent `e ≥ -1074` with value
`q * 2 ^ e`; `none` when the rounded value is beyond the largest finite `float64`. -/
def roundToFloat (num den : Nat) : Option (Nat × Int) :=
  let e0 : Int := (bitLen num num : Int) - (bitLen den den : Int) - 52
  let scaled (e : Int) : Nat × Nat :=
    if e ≥ 0 then (num, den * 2 ^ e.toNat) else (num * 2 ^ (-e).toNat, den)
  let e1 : Int := if (scaled e0).1 / (scaled e0).2 < 2 ^ 52 then e0 - 1 else e0
  let e2 : Int := if e1 < -1074 then -1074 else e1
  let n := (scaled e2).1
  let d := (scaled e2).2
  let q0 := n / d
  let r := n % d
  let q1 := if 2 * r > d ∨ (2 * r = d ∧ q0 % 2 = 1) then q0 + 1 else q0
  let q := if q1 = 2 ^ 53 then 2 ^ 52 else q1
  let e := if q1 = 2 ^ 53 then e2 + 1 else e2
  if e > 971 then none else some (q, e)

/-- The IEEE-754 bit pattern of the value `q * 2 ^ e` that `roundToFloat` returns. -/
def packFloat (q : Nat) (e : Int) : Nat :=
  if q < 2 ^ 52 then q else (e + 1075).toNat * 2 ^ 52 + (q - 2 ^ 52)

/-- Bits of the `float64` nearest to the fraction `num / den ≥ 0`; `none` on overflow. -/
def toBits (num den : Nat) : Option Nat :=
  if num = 0 then some 0
  else
    match roundToFloat num den with
    | none => none
    | some (q, e) => some (packFloat q e)

/-- The fraction `num / den * 10 ^ k`. -/
def scale10 (num den : Nat) (k : Int) : Nat × Nat :=
  if k ≥ 0 then (num * 10 ^ k.toNat, den) else (num, den * 10 ^ (-k).toNat)

/-- The value of a finite non-negative `float64`, given by its bits, as a fraction. -/
def floatRatio (abits : Nat) : Nat × Nat :=
  let ex : Nat := abits / 2 ^ 52
  let fr : Nat := abits % 2 ^ 52
  let q := if ex = 0 then fr else fr + 2 ^ 52
  let e : Int := if ex = 0 then -1074 else (ex : Int) - 1075
  if e ≥ 0 then (q * 2 ^ e.toNat, 1) else (q, 2 ^ (-e).toNat)

/-- Least `p`, searched upwards from the start value, with `num / den < 10 ^ p`. -/
def decExp : Nat → Nat → Nat → Int → Int
  | 0, _, _, p => p
  | fuel + 1, num, den, p =>
    if (scale10 num den (-p)).1 < (scale10 num den (-p)).2 then p
    else decExp fuel num den (p + 1)

/-- A start for `decExp` that lies below the exponent looked for, by at most four: the
binary size of the fraction times 0.30103, rounded down with room to spare. -/
def decExpStart (num den : Nat) : Int :=
  (((bitLen num num + 2000 - bitLen den den - 1) * 30103 / 100000 : Nat) : Int) - 604

/-- The decimals with `n` digits next below and next above `num / den` that read back as the
float with bits `abits`; of two, the nearer one, the even one on a tie.  The result
`(D, x)` stands for `D * 10 ^ x`. -/
def shortCandidate (abits num den : Nat) (p10 : Int) (n : Nat) : Option (Nat × Int) :=
  let s := scale10 num den ((n : Int) - p10)
  let lo := s.1 / s.2
  let r := s.1 % s.2
  let x : Int := p10 - (n : Int)
  let okLo : Bool := toBits (scale10 lo 1 x).1 (scale10 lo 1 x).2 = some abits
  let okHi : Bool :=
    r ≠ 0 ∧ toBits (scale10 (lo + 1) 1 x).1 (scale10 (lo + 1) 1 x).2 = some abits
  if okLo && okHi then
    (if 2 * r < s.2 ∨ (2 * r = s.2 ∧ lo % 2 = 0) then some (lo, x) else some (lo + 1, x))
  else if okLo then some (lo, x)
  else if okHi then some (lo + 1, x)
  else none

/-- Search for the least number of digits, from `n` on, that gives a candidate; seventeen
digits always do. -/
def shortestFrom : Nat → Nat → Nat → Nat → Int → Nat → Nat × Int
  | 0, _, num, den, p10, n =>
    ((scale10 num den ((n : Int) - p10)).1 / (scale10 num den ((n : Int) - p10)).2, p10 - n)
  | fuel + 1, abits, num, den, p10, n =>
    match shortCandidate abits num den p10 n with
    | some c => c
    | none => shortestFrom fuel abits num den p10 (n + 1)

/-- Removal of the trailing zeros of the digits. -/
def stripZeros : Nat → Nat → Int → Nat × Int
  | 0, D, x => (D, x)
  | fuel + 1, D, x =>
    if D ≠ 0 ∧ D % 10 = 0 then stripZeros fuel (D / 10) (x + 1) else (D, x)

/-- The shortest decimal that reads back as the positive finite float with bits `abits`,
what `strconv.FormatFloat` computes for precision -1: digits `D` and exponent `x`, the
decimal being `D * 10 ^ x`. -/
def shortest (abits : Nat) : Nat × Int :=
  let v := floatRatio abits
  let p10 := decExp 16 v.1 v.2 (decExpStart v.1 v.2)
  let c := shortestFrom 17 abits v.1 v.2 p10 1
  stripZeros 20 c.1 c.2

/-- Layout of `strconv.FormatFloat(f, 'f', -1, 64)` for the digits `D * 10 ^ x`. -/
def layoutF (D : Nat) (x : Int) : List Char :=
  let ds := Nat.toDigits 10 D
  let P : Int := (ds.length : Int) + x
  if P ≤ 0 then '0' :: '.' :: (List.replicate (-P).toNat '0' ++ ds)
  else if P ≥ ds.length then ds ++ List.replicate (P.toNat - ds.length) '0'
  else ds.take P.toNat ++ '.' :: ds.drop P.toNat

/-- Layout of `strconv.FormatFloat(f, 'e', -1, 64)` for the digits `D * 10 ^ x`. -/
def layoutE (D : Nat) (x : Int) : List Char :=
  let ds := Nat.toDigits 10 D
  let ex : Int := (ds.length : Int) + x - 1
  let mant := if ds.length > 1 then ds.take 1 ++ '.' :: ds.drop 1 else ds
  let es := Nat.toDigits 10 ex.natAbs
  mant ++ 'e' :: (if ex < 0 then '-' else '+') :: (if ex.natAbs < 10 then '0' :: es else es)

/-- The cleanup of the float encoder of `encoding/json`: "e-09" becomes "e-9". -/
def cleanExp (b : List Char) : List Char :=
  match b.reverse with
  | d :: z :: s :: e :: rest =>
    if z = '0' ∧ s = '-' ∧ e = 'e' then (d :: s :: e :: rest).reverse else b
  | _ => b

/-- Bits of the `float64` constant `1e-6`. -/
def bits1em6 : Nat := (toBits 1 (10 ^ 6)).getD 0

/-- Bits of the `float64` constant `1e21`. -/
def bits1e21 : Nat := (toBits (10 ^ 21) 1).getD 0

/-- The float encoder of `encoding/json`: `none` for NaN and the infinities; otherwise the
shortest decimal, in format 'e' when the magnitude is below 1e-6 or at least 1e21 and in
format 'f' otherwise. -/
def floatText (f : float64) : Option (List Char) :=
  let b := f.bits % 2 ^ 64
  let abits := b % 2 ^ 63
  if abits / 2 ^ 52 = 2047 then none
  else
    let body :=
      if abits = 0 then ['0']
      else if abits < bits1em6 ∨ abits ≥ bits1e21 then
        cleanExp (layoutE (shortest abits).1 (shortest abits).2)
      else layoutF (shortest abits).1 (shortest abits).2
    some (if b ≥ 2 ^ 63 then '-' :: body else body)

/-- A JSON number literal, taken apart: sign, the digits before and after the point read as
one number, the count of digits after the point, the exponent, and the text itself. -/
structure NumLit where
  neg : Bool
  mant : Nat
  fracLen : Nat
  exp : Int
  text : List Char
  deriving DecidableEq

/-- The conversion `strconv.ParseFloat(lit, 64)` of a JSON number literal: the nearest
`float64`; `none` when the literal is out of range.  Literals far outside the range of
`float64` are settled by their size alone. -/
def parseFloat (n : NumLit) : Option float64 :=
  let sign : Nat := if n.neg then 2 ^ 63 else 0
  let x : Int := n.exp - (n.fracLen : Int)
  let nd : Int := ((Nat.toDigits 10 n.mant).length : Int)
  if n.mant = 0 then some ⟨sign⟩
  else if nd + x > 310 then none
  else if nd + x < -330 then some ⟨sign⟩
  else
    match toBits (scale10 n.mant 1 x).1 (scale10 n.mant 1 x).2 with
    | none => none
    | some b => some ⟨sign + b⟩

/-- White space of JSON. -/
def isSpace (c : Char) : Bool :=
  c = ' ' || c = '\t' || c = '\r' || c = '\n'

/-- The text after its leading white space. -/
def skipSpace : List Char → List Char
  | [] => []
  | c :: cs => if isSpace c then skipSpace cs else c :: cs

/-- A decimal digit. -/
def isDigit (c : Char) : Bool :=
  '0' ≤ c && c ≤ '9'

/-- The number the decimal digits `ds` spell, continuing from `acc`. -/
def digitsValue (acc : Nat) : List Char → Nat
  | [] => acc
  | c :: cs => digitsValue (acc * 10 + (c.toNat - '0'.toNat)) cs

/-- The exponent part of a number literal, if there is one, after mantissa `lit`. -/
def lexExp (neg : Bool) (ip fp lit : List Char) (r : List Char) : Option (NumLit × List Char) :=
  match r with
  | e :: r1 =>
    if e = 'e' ∨ e = 'E' then
      let sg : List Char := match r1 with
        | s :: _ => if s = '+' ∨ s = '-' then [s] else []
        | [] => []
      let r2 := r1.drop sg.length
      let ds := r2.takeWhile isDigit
      if ds = [] then none
      else
        some (⟨neg, digitsValue 0 (ip ++ fp), fp.length,
          if sg = ['-'] then -(digitsValue 0 ds : Int) else (digitsValue 0 ds : Int),
          lit ++ e :: sg ++ ds⟩, r2.dropWhile isDigit)
    else some (⟨neg, digitsValue 0 (ip ++ fp), fp.length, 0, lit⟩, r)
  | [] => some (⟨neg, digitsValue 0 (ip ++ fp), fp.length, 0, lit⟩, r)

/-- The fraction part of a number literal, if there is one, after integer part `ip`. -/
def lexFrac (neg : Bool) (ip lit : List Char) (r : List Char) : Option (NumLit × List Char) :=
  match r with
  | p :: r1 =>
    if p = '.' then
      let fp := r1.takeWhile isDigit
      if fp = [] then none else lexExp neg ip fp (lit ++ '.' :: fp) (r1.dropWhile isDigit)
    else lexExp neg ip [] lit r
  | [] => lexExp neg ip [] lit r

/-- A JSON number literal at the head of the text: an optional "-", then "0" or a digit
from 1 to 9 followed by digits, then an optional fraction and an optional exponent. -/
def lexNumber (cs : List Char) : Option (NumLit × List Char) :=
  let neg : Bool := cs.head? = some '-'
  let r0 := if neg then cs.drop 1 else cs
  let sg : List Char := if neg then ['-'] else []
  match r0 with
  | d :: r1 =>
    if d = '0' then lexFrac neg [d] (sg ++ [d]) r1
    else if isDigit d then
      lexFrac neg (d :: r1.takeWhile isDigit) (sg ++ d :: r1.takeWhile isDigit)
        (r1.dropWhile isDigit)
    else none
  | [] => none

/-- A piece of a string literal: a character, or the code unit of a "\u" escape. -/
inductive StrItem where
  | lit (c : Char)
  | unit (u : Nat)
  deriving DecidableEq

/-- Value of a hexadecimal digit. -/
def hexVal (c : Char) : Option Nat :=
  if '0' ≤ c ∧ c ≤ '9' then some (c.toNat - '0'.toNat)
  else if 'a' ≤ c ∧ c ≤ 'f' then some (c.toNat - 'a'.toNat + 10)
  else if 'A' ≤ c ∧ c ≤ 'F' then some (c.toNat - 'A'.toNat + 10)
  else none

/-- The character a one-letter escape stands for. -/
def simpleEscape (e : Char) : Option Char :=
  if e = '"' then some '"'
  else if e = '\\' then some '\\'
  else if e = '/' then some '/'
  else if e = 'b' then some (Char.ofNat 8)
  else if e = 'f' then some (Char.ofNat 12)
  else if e = 'n' then some '\n'
  else if e = 'r' then some '\r'
  else if e = 't' then some '\t'
  else none

/-- The pieces of a string literal, from after the opening quote to the closing one.  A
control character, an unknown escape and the end of the text are errors. -/
def lexString : Nat → List Char → Option (List StrItem × List Char)
  | 0, _ => none
  | _ + 1, [] => none
  | fuel + 1, c :: rest =>
    if c = '"' then some ([], rest)
    else if c = '\\' then
      match rest with
      | [] => none
      | e :: rest1 =>
        if e = 'u' then
          match rest1 with
          | h1 :: h2 :: h3 :: h4 :: rest2 =>
            match hexVal h1, hexVal h2, hexVal h3, hexVal h4 with
            | some a, some b, some c4, some d =>
              match lexString fuel rest2 with
              | some (items, r) =>
                some (StrItem.unit (((a * 16 + b) * 16 + c4) * 16 + d) :: items, r)
              | none => none
            | _, _, _, _ => none
          | _ => none
        else
          match simpleEscape e with
          | some ch =>
            match lexString fuel rest1 with
            | some (items, r) => some (StrItem.lit ch :: items, r)
            | none => none
          | none => none
    else if c.toNat < 32 then none
    else
      match lexString fuel rest with
      | some (items, r) => some (StrItem.lit c :: items, r)
      | none => none

/-- The characters of a string literal: the code units of "\u" escapes become characters, a
high surrogate directly followed by a low one giving one character and any other surrogate
the replacement character U+FFFD.  `pending` is a high surrogate just read. -/
def unquoteFrom : Option Nat → List StrItem → List Char
  | none, [] => []
  | some _, [] => [Char.ofNat 0xFFFD]
  | none, StrItem.lit c :: rest => c :: unquoteFrom none rest
  | some _, StrItem.lit c :: rest => Char.ofNat 0xFFFD :: c :: unquoteFrom none rest
  | none, StrItem.unit u :: rest =>
    if 0xD800 ≤ u ∧ u < 0xDC00 then unquoteFrom (some u) rest
    else if 0xDC00 ≤ u ∧ u < 0xE000 then Char.ofNat 0xFFFD :: unquoteFrom none rest
    else Char.ofNat u :: unquoteFrom none rest
  | some h, StrItem.unit v :: rest =>
    if 0xDC00 ≤ v ∧ v < 0xE000 then
      Char.ofNat ((h - 0xD800) * 1024 + (v - 0xDC00) + 0x10000) :: unquoteFrom none rest
    else if 0xD800 ≤ v ∧ v < 0xDC00 then Char.ofNat 0xFFFD :: unquoteFrom (some v) rest
    else Char.ofNat 0xFFFD :: Char.ofNat v :: unquoteFrom none rest

/-- The characters of a string literal, from its pieces. -/
def unquote (items : List StrItem) : List Char :=
  unquoteFrom none items

/-- A JSON value, as far as decoding into the two records looks at it: the elements of an
array are checked and dropped; an object is the chain of its members, `objEnd` closing it. -/
inductive JV where
  | null
  | bool (b : Bool)
  | num (n : NumLit)
  | str (s : List Char)
  | arr
  | objEnd
  | objCons (key : List Char) (val : JV) (rest : JV)
  deriving DecidableEq

/-- What the parser is reading: a value, the rest of an array, the rest of an object. -/
inductive Goal where
  | value
  | elems (first : Bool)
  | members (first : Bool)
  deriving DecidableEq

/-- The limit `maxNestingDepth` of the scanner. -/
def maxNestingDepth : Nat := 10000

/-- The scanner of `encoding/json` as a parser: reads what `goal` asks for at the head of the
text, at nesting level `depth`, and returns it with the text left over; `none` is a syntax
error (or a text that ends too early). -/
def parse : Nat → Goal → Nat → List Char → Option (JV × List Char)
  | 0, _, _, _ => none
  | fuel + 1, Goal.value, depth, cs =>
    match skipSpace cs with
    | [] => none
    | c :: rest =>
      if c = '\x7b' then
        if depth + 1 > maxNestingDepth then none
        else parse fuel (Goal.members true) (depth + 1) rest
      else if c = '[' then
        if depth + 1 > maxNestingDepth then none
        else parse fuel (Goal.elems true) (depth + 1) rest
      else if c = '"' then
        match lexString (rest.length + 1) rest with
        | some (items, r) => some (JV.str (unquote items), r)
        | none => none
      else if c = '-' ∨ isDigit c then
        match lexNumber (c :: rest) with
        | some (n, r) => some (JV.num n, r)
        | none => none
      else if "true".data.isPrefixOf (c :: rest) then some (JV.bool true, rest.drop 3)
      else if "false".data.isPrefixOf (c :: rest) then some (JV.bool false, rest.drop 4)
      else if "null".data.isPrefixOf (c :: rest) then some (JV.null, rest.drop 3)
      else none
  | fuel + 1, Goal.elems first, depth, cs =>
    match skipSpace cs with
    | [] => none
    | c :: rest =>
      if first ∧ c = ']' then some (JV.arr, rest)
      else
        match parse fuel Goal.value depth (c :: rest) with
        | none => none
        | some (_, r) =>
          match skipSpace r with
          | s :: r1 =>
            if s = ',' then parse fuel (Goal.elems false) depth r1
            else if s = ']' then some (JV.arr, r1)
            else none
          | [] => none
  | fuel + 1, Goal.members first, depth, cs =>
    match skipSpace cs with
    | [] => none
    | c :: rest =>
      if first ∧ c = '\x7d' then some (JV.objEnd, rest)
      else if c = '"' then
        match lexString (rest.length + 1) rest with
        | none => none
        | some (items, r) =>
          match skipSpace r with
          | colon :: r1 =>
            if colon = ':' then
              match parse fuel Goal.value depth r1 with
              | none => none
              | some (v, r2) =>
                match skipSpace r2 with
                | s :: r3 =>
                  if s = ',' then
                    match parse fuel (Goal.members false) depth r3 with
                    | some (tail, r4) => some (JV.objCons (unquote items) v tail, r4)
                    | none => none
                  else if s = '\x7d' then some (JV.objCons (unquote items) v JV.objEnd, r3)
                  else none
                | [] => none
            else none
          | [] => none
      else none

/-- The smallest character of the case-folding class, for the classes that hold an ASCII
letter: small letters go to capitals, the Kelvin sign to K and the long s to S. -/
def foldChar (c : Char) : Char :=
  if 'a' ≤ c ∧ c ≤ 'z' then Char.ofNat (c.toNat - 32)
  else if c.toNat = 0x212A then 'K'
  else if c.toNat = 0x17F then 'S'
  else c

/-- Whether the object key `key` selects the field named `name` (an ASCII name): equal, or
equal under case folding. -/
def keyMatches (key : List Char) (name : String) : Bool :=
  key.map foldChar = name.data.map foldChar

/-- What went wrong in a call into `encoding/json`. -/
inductive JSONFault where
  | malformed
  | mismatch (value : String) (field : String)
  | unsupported
  deriving DecidableEq

/-- The name `encoding/json` gives the kind of a value in its type errors. -/
def kindName : JV → String
  | JV.null => "null"
  | JV.bool _ => "bool"
  | JV.num _ => "number"
  | JV.str _ => "string"
  | JV.arr => "array"
  | JV.objEnd => "object"
  | JV.objCons _ _ _ => "object"

/-- Storing a value into a `string` field holding `cur`. -/
def storeString (field : String) (v : JV) (cur : String) : String × Option JSONFault :=
  match v with
  | JV.str s => (String.mk s, none)
  | JV.null => (cur, none)
  | _ => (cur, some (JSONFault.mismatch (kindName v) field))

/-- Storing a value into a `float64` field holding `cur`. -/
def storeFloat (field : String) (v : JV) (cur : float64) : float64 × Option JSONFault :=
  match v with
  | JV.num n =>
    match parseFloat n with
    | some f => (f, none)
    | none => (cur, some (JSONFault.mismatch ("number " ++ String.mk n.text) field))
  | JV.null => (cur, none)
  | _ => (cur, some (JSONFault.mismatch (kindName v) field))

/-- The first error met is the one reported. -/
def firstFault (a b : Option JSONFault) : Option JSONFault :=
  match a with
  | some e => some e
  | none => b

/-- Storing the members of an object into the struct of the field `Main`. -/
def storeMainMembers : JV → weatherMain → Option JSONFault → weatherMain × Option JSONFault
  | JV.objCons key val rest, m, err =>
    if keyMatches key "temp" then
      storeMainMembers rest ⟨(storeFloat "main.temp" val m.Kelvin).1⟩
        (firstFault err (storeFloat "main.temp" val m.Kelvin).2)
    else storeMainMembers rest m err
  | _, m, err => (m, err)

/-- Storing a value into the struct of the field `Main`. -/
def storeMain (v : JV) (cur : weatherMain) : weatherMain × Option JSONFault :=
  match v with
  | JV.objEnd => (cur, none)
  | JV.objCons _ _ _ => storeMainMembers v cur none
  | JV.null => (cur, none)
  | _ => (cur, some (JSONFault.mismatch (kindName v) "main"))

/-- Storing the members of an object into a `weatherData`. -/
def storeWeatherMembers : JV → weatherData → Option JSONFault → weatherData × Option JSONFault
  | JV.objCons key val rest, d, err =>
    if keyMatches key "name" then
      storeWeatherMembers rest ⟨(storeString "name" val d.Name).1, d.Main⟩
        (firstFault err (storeString "name" val d.Name).2)
    else if keyMatches key "main" then
      storeWeatherMembers rest ⟨d.Name, (storeMain val d.Main).1⟩
        (firstFault err (storeMain val d.Main).2)
    else storeWeatherMembers rest d err
  | _, d, err => (d, err)

/-- Storing a value into a `weatherData`. -/
def storeWeather (v : JV) (cur : weatherData) : weatherData × Option JSONFault :=
  match v with
  | JV.objEnd => (cur, none)
  | JV.objCons _ _ _ => storeWeatherMembers v cur none
  | JV.null => (cur, none)
  | _ => (cur, some (JSONFault.mismatch (kindName v) ""))

/-- Storing the members of an object into an `apiConfigData`. -/
def storeConfigMembers : JV → apiConfigData → Option JSONFault →
    apiConfigData × Option JSONFault
  | JV.objCons key val rest, c, err =>
    if keyMatches key "openWeatherMapApiKey" then
      storeConfigMembers rest
        ⟨(storeString "openWeatherMapApiKey" val c.OpenWeatherMapApiKey).1⟩
        (firstFault err (storeString "openWeatherMapApiKey" val c.OpenWeatherMapApiKey).2)
    else storeConfigMembers rest c err
  | _, c, err => (c, err)

/-- Storing a value into an `apiConfigData`. -/
def storeConfig (v : JV) (cur : apiConfigData) : apiConfigData × Option JSONFault :=
  match v with
  | JV.objEnd => (cur, none)
  | JV.objCons _ _ _ => storeConfigMembers v cur none
  | JV.null => (cur, none)
  | _ => (cur, some (JSONFault.mismatch (kindName v) ""))

/-- The call `json.NewDecoder(body).Decode(&d)` on a fresh decoder: the first JSON value of
the body is read, what follows it is left alone, and the value is stored into `d`. -/
def decodeWeatherText (body : String) (d : weatherData) : weatherData × Option JSONFault :=
  match parse (body.data.length + 1) Goal.value 0 body.data with
  | none => (d, some JSONFault.malformed)
  | some (v, _) => storeWeather v d

/-- The call `json.Unmarshal(b, &c)`: the text must be one JSON value, white space around it
allowed, and the value is stored into `c`. -/
def unmarshalConfigText (b : String) (c : apiConfigData) : apiConfigData × Option JSONFault :=
  match parse (b.data.length + 1) Goal.value 0 b.data with
  | none => (c, some JSONFault.malformed)
  | some (v, rest) =>
    if skipSpace rest = [] then storeConfig v c else (c, some JSONFault.malformed)

/-- The hexadecimal digit of `n < 16`, in lower case. -/
def hexDigit (n : Nat) : Char :=
  if n < 10 then Char.ofNat (n + 48) else Char.ofNat (n + 87)

/-- How the string encoder of `encoding/json` writes one character, HTML escaping on. -/
def quoteChar (c : Char) : List Char :=
  if c = '"' then ['\\', '"']
  else if c = '\\' then ['\\', '\\']
  else if c.toNat = 8 then ['\\', 'b']
  else if c.toNat = 12 then ['\\', 'f']
  else if c = '\n' then ['\\', 'n']
  else if c = '\r' then ['\\', 'r']
  else if c = '\t' then ['\\', 't']
  else if c.toNat < 32 ∨ c = '<' ∨ c = '>' ∨ c = '&' then
    ['\\', 'u', '0', '0', hexDigit (c.toNat / 16), hexDigit (c.toNat % 16)]
  else if c.toNat = 0x2028 then ['\\', 'u', '2', '0', '2', '8']
  else if c.toNat = 0x2029 then ['\\', 'u', '2', '0', '2', '9']
  else [c]

/-- The JSON string literal of a Go string. -/
def quoteText (s : String) : String :=
  String.mk ('"' :: (s.data.map quoteChar).flatten ++ ['"'])
/-- The model of `encoding/json` as a `JSON`; `say` gives the text of the error for each
fault, the wording of the messages being left open. -/
def goJSON (say : JSONFault → String) : JSON where
  unmarshalConfig := fun b c =>
    ((unmarshalConfigText b c).1,
      (unmarshalConfigText b c).2.map (fun f => ⟨ErrKind.jsonDecode, say f⟩))
  decodeWeather := fun body d =>
    ((decodeWeatherText body d).1,
      (decodeWeatherText body d).2.map (fun f => ⟨ErrKind.jsonDecode, say f⟩))
  quote := quoteText
  number := fun f =>
    match floatText f with
    | some t => (String.mk t, none)
    | none => ("", some ⟨ErrKind.jsonDecode, say JSONFault.unsupported⟩)

/-! ## Concrete worlds, used to run the program on examples -/

/-- The upstream body `{"name":"London","main":{"temp":280.32}}`. -/
def londonText : String :=
  "\x7b\"name\":\"London\",\"main\":\x7b\"temp\":280.32\x7d\x7d"

/-- An upstream error body, a JSON object without `name` and `main`. -/
def invalidKeyText : String :=
  "\x7b\"cod\":401,\"message\":\"Invalid API key\"\x7d"

/-- The content of a well-formed `.apiConfig`. -/
def configText : String :=
  "\x7b\"openWeatherMapApiKey\":\"k123\"\x7d"

/-- The `float64` nearest to 280.32 (bit pattern 0x4071851EB851EB85). -/
def kelvinLondon : float64 :=
  ⟨4643639057783581573⟩

/-- The record London, 280.32 K. -/
def londonData : weatherData :=
  ⟨"London", ⟨kelvinLondon⟩⟩

/-- The error of `os.ReadFile` on a missing file. -/
def errNoFile : GoError :=
  ⟨ErrKind.fileRead, "open .apiConfig: no such file or directory"⟩

/-- The error of `encoding/json` on a text that is not JSON. -/
def errBadJSON : GoError :=
  ⟨ErrKind.jsonDecode, "invalid character '<' looking for beginning of value"⟩

/-- The error of `http.Get` when the upstream cannot be reached. -/
def errNoRoute : GoError :=
  ⟨ErrKind.network, "dial tcp: connection refused"⟩

/-- The error of `json.Marshal` on a number that has no JSON literal. -/
def errUnsupported : GoError :=
  ⟨ErrKind.jsonDecode, "json: unsupported value"⟩

/-- A table standing in for `encoding/json`, agreeing with it on the few texts and values the
examples use. -/
def tableJSON : JSON where
  unmarshalConfig := fun b c =>
    if b = configText then (⟨"k123"⟩, none) else (c, some errBadJSON)
  decodeWeather := fun body d =>
    if body = londonText then (londonData, none)
    else if body = invalidKeyText then (d, none)
    else (d, some errBadJSON)
  quote := fun s => "\"" ++ s ++ "\""
  number := fun f =>
    if f = kelvinLondon then ("280.32", none)
    else if f = ⟨0⟩ then ("0", none)
    else ("", some errUnsupported)

/-- Short error texts for the faults of the JSON model. -/
def faultText : JSONFault → String
  | JSONFault.malformed => "invalid character"
  | JSONFault.mismatch value field => "json: cannot unmarshal " ++ value ++ " into " ++ field
  | JSONFault.unsupported => "json: unsupported value"

/-- A world with a good config file and an upstream answering `resp` to every request. -/
def worldWith (resp : Response × Option GoError) : World where
  ReadFile := fun name => if name = ".apiConfig" then (configText, none) else ("", some errNoFile)
  Get := fun _ => resp

/-- The world of the happy path: the upstream answers 200 with the London record. -/
def okWorld : World :=
  worldWith (⟨200, londonText⟩, none)

/-- A world without a config file. -/
def noFileWorld : World where
  ReadFile := fun _ => ("", some errNoFile)
  Get := fun _ => (⟨200, londonText⟩, none)

/-- A world whose upstream cannot be reached. -/
def downWorld : World :=
  worldWith (⟨0, ""⟩, some errNoRoute)

/-- What a lookup of London does to the outside world when the config file is good: it reads
the file, then asks the upstream once. -/
def londonEvents : List Event :=
  [Event.readFile ".apiConfig",
    Event.httpGet "http://api.openweathermap.org/data/2.5/weather?APPID=k123&q=London"]

/-- A `GET` request for `path`, without headers or body. -/
def getRequest (path : String) : Request :=
  ⟨"GET", path, [], ""⟩

/-- The response a finished handler leaves: status code, `Content-Type` header and body;
`none` when the handler panicked. -/
def observe (r : Except Panic (ResponseWriter × List Event)) : Option (Nat × String × String) :=
  match r with
  | Except.error _ => none
  | Except.ok (w, _) => some (w.Code, headerGet w.Headers "Content-Type", w.body)

/-- The outside-world events of a finished handler; `none` when it panicked. -/
def events (r : Except Panic (ResponseWriter × List Event)) : Option (List Event) :=
  match r with
  | Except.error _ => none
  | Except.ok (_, tr) => some tr

set_option maxRecDepth 100000

/-! ## Lemmas on `strings.SplitN` with the separator "/" -/

theorem len_ge_length (s : List Char) : s.length ≤ len s := by
  induction s with
  | nil => simp [len]
  | cons c cs ih =>
    have hc : 1 ≤ c.utf8Size := Char.utf8Size_pos c
    simp only [len, List.map_cons, List.sum_cons, List.length_cons] at ih ⊢
    omega

theorem indexFrom_slash_notin (s : List Char) (i : Nat) (h : '/' ∉ s) :
    indexFrom ['/'] s i = -1 := by
  induction s generalizing i with
  | nil => simp [indexFrom]
  | cons c cs ih =>
    have hc : ¬ ('/' = c) := fun e => h (List.mem_cons.mpr (Or.inl e))
    have hcs : '/' ∉ cs := fun e => h (List.mem_cons.mpr (Or.inr e))
    simp [indexFrom, List.isPrefixOf, hc, ih _ hcs]

theorem indexFrom_slash_append (a t : List Char) (i : Nat) (h : '/' ∉ a) :
    indexFrom ['/'] (a ++ '/' :: t) i = ((i + a.length : Nat) : Int) := by
  induction a generalizing i with
  | nil => simp [indexFrom, List.isPrefixOf]
  | cons c cs ih =>
    have hc : ¬ ('/' = c) := fun e => h (List.mem_cons.mpr (Or.inl e))
    have hcs : '/' ∉ cs := fun e => h (List.mem_cons.mpr (Or.inr e))
    have hstep : indexFrom ['/'] (c :: (cs ++ '/' :: t)) i
        = indexFrom ['/'] (cs ++ '/' :: t) (i + 1) := by
      simp [indexFrom, List.isPrefixOf, hc]
    rw [List.cons_append, hstep, ih _ hcs, List.length_cons]
    congr 1
    omega

theorem exists_first_slash (s : List Char) (h : '/' ∈ s) :
    ∃ a t, s = a ++ '/' :: t ∧ '/' ∉ a := by
  induction s with
  | nil => simp at h
  | cons c cs ih =>
    by_cases hc : c = '/'
    · exact ⟨[], cs, by simp [hc], by simp⟩
    · have hcs : '/' ∈ cs := by
        rcases List.mem_cons.mp h with e | e
        · exact absurd e.symm hc
        · exact e
      obtain ⟨a, t, rfl, ha⟩ := ih hcs
      refine ⟨c :: a, t, by simp, ?_⟩
      intro hm
      rcases List.mem_cons.mp hm with e | e
      · exact hc e.symm
      · exact ha e

theorem splitLoop_slash_notin (k : Nat) (s : List Char) (h : '/' ∉ s) :
    splitLoop ['/'] k s = [s] := by
  cases k with
  | zero => simp [splitLoop]
  | succ k => simp [splitLoop, Index, indexFrom_slash_notin s 0 h]

theorem splitLoop_slash_append (k : Nat) (a t : List Char) (h : '/' ∉ a) :
    splitLoop ['/'] (k + 1) (a ++ '/' :: t) = a :: splitLoop ['/'] k t := by
  have hi := indexFrom_slash_append a t 0 h
  simp only [Nat.zero_add] at hi
  have hneg : ¬ ((a.length : Int) < 0) := by omega
  simp [splitLoop, Index, hi, hneg]

theorem splitLoop_slash_length (k : Nat) (s : List Char) :
    (splitLoop ['/'] k s).length = min k (s.count '/') + 1 := by
  induction k generalizing s with
  | zero => simp [splitLoop]
  | succ k ih =>
    by_cases h : '/' ∈ s
    · obtain ⟨a, t, rfl, ha⟩ := exists_first_slash s h
      rw [splitLoop_slash_append k a t ha, List.length_cons, ih t]
      have hca : a.count '/' = 0 := List.count_eq_zero.mpr ha
      simp only [List.count_append, List.count_cons_self, hca]
      omega
    · rw [splitLoop_slash_notin _ s h]
      have hc : s.count '/' = 0 := List.count_eq_zero.mpr h
      simp [hc]

theorem genSplit_slash_length (s : List Char) :
    (genSplit s ['/'] 3).length = min 2 (s.count '/') + 1 := by
  have h1 : s.count '/' ≤ s.length := List.count_le_length _ _
  have h2 := len_ge_length s
  simp only [genSplit, show ¬ ((3 : Int) = 0) by decide, show ¬ ((3 : Int) < 0) by decide,
    if_false, show ¬ (['/'] = ([] : List Char)) by simp, show (3 : Int).toNat = 3 by rfl]
  rw [splitLoop_slash_length]
  split <;> omega

theorem genSplit_slash_three (a b rest : List Char) (ha : '/' ∉ a) (hb : '/' ∉ b) :
    genSplit (a ++ '/' :: (b ++ '/' :: rest)) ['/'] 3 = [a, b, rest] := by
  have h2 := len_ge_length (a ++ '/' :: (b ++ '/' :: rest))
  have h3 : 2 ≤ (a ++ '/' :: (b ++ '/' :: rest)).length := by simp; omega
  have hn : (if 3 > len (a ++ '/' :: (b ++ '/' :: rest)) + 1
      then len (a ++ '/' :: (b ++ '/' :: rest)) + 1 else 3) - 1 = 2 := by
    split <;> omega
  simp only [genSplit, show ¬ ((3 : Int) = 0) by decide, show ¬ ((3 : Int) < 0) by decide,
    if_false, show ¬ (['/'] = ([] : List Char)) by simp, show (3 : Int).toNat = 3 by rfl, hn]
  rw [splitLoop_slash_append 1 a _ ha, splitLoop_slash_append 0 b _ hb]
  simp [splitLoop]

theorem SplitN_slash_three (a b rest : String) (ha : '/' ∉ a.data) (hb : '/' ∉ b.data) :
    SplitN (a ++ "/" ++ b ++ "/" ++ rest) "/" 3 = [a, b, rest] := by
  have hd : (a ++ "/" ++ b ++ "/" ++ rest).data = a.data ++ '/' :: (b.data ++ '/' :: rest.data) := by
    simp [String.data_append]
  have hs : ("/" : String).data = ['/'] := rfl
  simp only [SplitN, hd, hs, genSplit_slash_three _ _ _ ha hb, List.map_cons, List.map_nil]

theorem SplitN_weather (c : String) :
    SplitN ("/weather/" ++ c) "/" 3 = ["", "weather", c] := by
  have h := SplitN_slash_three "" "weather" c (by simp) (by decide)
  have e : ("" : String) ++ "/" ++ "weather" ++ "/" ++ c = "/weather/" ++ c := by
    apply String.ext
    simp [String.data_append]
  rw [e] at h
  exact h

theorem SplitN_slash_length (path : String) :
    (SplitN path "/" 3).length = min 2 (path.data.count '/') + 1 := by
  have hs : ("/" : String).data = ['/'] := rfl
  simp [SplitN, hs, genSplit_slash_length]

/-! ## Lemmas on the handlers -/

theorem weatherHandler_weather (W : World) (J : JSON) (w : ResponseWriter) (m : String)
    (h : List (String × String)) (b : String) (c : String) :
    weatherHandler W J w ⟨m, "/weather/" ++ c, h, b⟩ = Except.ok (weatherRespond W J w c) := by
  simp [weatherHandler, SplitN_weather]

theorem empty_append (s : String) : "" ++ s = s := by
  apply String.ext
  simp [String.data_append]

theorem append_newline_ne_empty (s : String) : s ++ "\n" ≠ "" := by
  intro h
  have hd := congrArg String.data h
  simp [String.data_append] at hd

theorem Write_new (m b : String) :
    (ResponseWriter.new m).Write b
      = ⟨m, [], true, 200, [], if m = "HEAD" then "" else b⟩ := by
  by_cases hm : m = "HEAD" <;>
    simp [ResponseWriter.Write, ResponseWriter.WriteHeader, ResponseWriter.new,
      bodyAllowedForStatus, hm, empty_append]

theorem Error_new (m msg : String) :
    Error (ResponseWriter.new m) msg StatusInternalServerError
      = ⟨m, [("Content-Type", "text/plain; charset=utf-8"),
            ("X-Content-Type-Options", "nosniff")],
          true, 500,
          [("Content-Type", "text/plain; charset=utf-8"), ("X-Content-Type-Options", "nosniff")],
          if m = "HEAD" then "" else msg ++ "\n"⟩ := by
  by_cases hm : m = "HEAD" <;>
    simp [Error, ResponseWriter.new, ResponseWriter.DelHeader, ResponseWriter.SetHeader,
      ResponseWriter.WriteHeader, ResponseWriter.Write, headerSet, headerDel,
      bodyAllowedForStatus, StatusInternalServerError, hm, empty_append]

theorem Encode_new (J : JSON) (m : String) (d : weatherData) :
    (Encode J ((ResponseWriter.new m).SetHeader "Content-Type"
        "application/json; charset=utf-8") d).1
      = match marshalWeather J d with
        | (_, some _) =>
          ⟨m, [("Content-Type", "application/json; charset=utf-8")], false, 0, [], ""⟩
        | (b, none) =>
          ⟨m, [("Content-Type", "application/json; charset=utf-8")], true, 200,
            [("Content-Type", "application/json; charset=utf-8")],
            if m = "HEAD" then "" else b ++ "\n"⟩ := by
  simp only [Encode]
  split
  · simp [ResponseWriter.SetHeader, ResponseWriter.new, headerSet, headerDel]
  · by_cases hm : m = "HEAD" <;>
      simp [ResponseWriter.Write, ResponseWriter.WriteHeader, ResponseWriter.SetHeader,
        ResponseWriter.new, headerSet, headerDel, bodyAllowedForStatus, hm, empty_append]

theorem observe_failure (W : World) (J : JSON) (r : Request) (city : String)
    (d : weatherData) (e : GoError) (tr : List Event)
    (hcity : (SplitN r.Path "/" 3)[2]? = some city)
    (hq : query W J city [] = ((d, some e), tr)) :
    observe (weatherHandler W J (ResponseWriter.new r.Method) r)
      = some (500, "text/plain; charset=utf-8",
          if r.Method = "HEAD" then "" else e.Error ++ "\n") := by
  simp [weatherHandler, hcity, weatherRespond, hq, observe, Error_new, ResponseWriter.Code,
    ResponseWriter.Headers, headerGet, GoError.Error]

theorem observe_success (W : World) (J : JSON) (r : Request) (city : String)
    (d : weatherData) (tr : List Event)
    (hcity : (SplitN r.Path "/" 3)[2]? = some city)
    (hq : query W J city [] = ((d, none), tr)) :
    observe (weatherHandler W J (ResponseWriter.new r.Method) r)
      = some (200, "application/json; charset=utf-8",
          match marshalWeather J d with
          | (_, some _) => ""
          | (b, none) => if r.Method = "HEAD" then "" else b ++ "\n") := by
  simp only [weatherHandler, hcity, weatherRespond, hq, observe, Encode_new]
  split <;> simp [ResponseWriter.Code, ResponseWriter.Headers, headerGet]

theorem requestedURL_plain (k c : String) (hk : '#' ∉ k.data) (hc : '#' ∉ c.data)
    (hkc : stringContainsCTLByte k.data = false) (hcc : stringContainsCTLByte c.data = false) :
    requestedURL ("http://api.openweathermap.org/data/2.5/weather?APPID=" ++ k ++ "&q=" ++ c)
      = some ("http://api.openweathermap.org/data/2.5/weather?APPID=" ++ k ++ "&q=" ++ c) := by
  have hall : ∀ x ∈ ("http://api.openweathermap.org/data/2.5/weather?APPID=" ++ k ++ "&q="
      ++ c).data, (x != '#') = true := by
    intro x hx
    simp only [String.data_append, List.mem_append] at hx
    have hne : x ≠ '#' := by
      rcases hx with ((hx | hx) | hx) | hx
      · intro e
        subst e
        revert hx
        decide
      · intro e
        exact hk (e ▸ hx)
      · intro e
        subst e
        revert hx
        decide
      · intro e
        exact hc (e ▸ hx)
    simpa using hne
  have htake : List.takeWhile (fun x => x != '#')
      ("http://api.openweathermap.org/data/2.5/weather?APPID=" ++ k ++ "&q=" ++ c).data
      = ("http://api.openweathermap.org/data/2.5/weather?APPID=" ++ k ++ "&q=" ++ c).data :=
    List.takeWhile_eq_self_iff.mpr hall
  have hdrop : List.dropWhile (fun x => x != '#')
      ("http://api.openweathermap.org/data/2.5/weather?APPID=" ++ k ++ "&q=" ++ c).data
      = [] :=
    List.dropWhile_eq_nil_iff.mpr hall
  have hctl : stringContainsCTLByte
      ("http://api.openweathermap.org/data/2.5/weather?APPID=" ++ k ++ "&q=" ++ c).data
      = false := by
    have h1 : stringContainsCTLByte
        ("http://api.openweathermap.org/data/2.5/weather?APPID=" : String).data = false := by
      decide
    have h2 : stringContainsCTLByte ("&q=" : String).data = false := by decide
    simp only [stringContainsCTLByte] at h1 h2 hkc hcc ⊢
    simp only [String.data_append, List.any_append, h1, h2, hkc, hcc, Bool.or_false]
  simp only [requestedURL, htake, hdrop, hctl, List.drop_nil, List.length_nil, validEscapes,
    Bool.false_eq_true, if_false, Bool.not_true]

theorem decode_london : decodeWeatherText londonText weatherData.zero = (londonData, none) := by
  decide

theorem floatText_london : floatText kelvinLondon = some "280.32".data := by
  decide

theorem quoteText_london : quoteText "London" = "\"London\"" := by
  decide

theorem marshal_london (say : JSONFault → String) :
    marshalWeather (goJSON say) londonData = (londonText, none) := by
  have hn : (goJSON say).number londonData.Main.Kelvin = ("280.32", none) := by
    simp only [goJSON, londonData, floatText_london]
  have hq : (goJSON say).quote londonData.Name = "\"London\"" := quoteText_london
  simp only [marshalWeather, hn, hq]
  decide

/-! ## The claims -/

/-- C1 as stated fails: for a `HEAD` request the greeting handler writes its text, the
server swallows it, and the response has status 200 and an empty body. -/
theorem hello_head_has_no_body :
    (hello (ResponseWriter.new "HEAD") ⟨"HEAD", "/", [], ""⟩).Code = 200 ∧
      (hello (ResponseWriter.new "HEAD") ⟨"HEAD", "/", [], ""⟩).body = "" ∧
      (hello (ResponseWriter.new "HEAD") ⟨"HEAD", "/", [], ""⟩).body ≠ "hello from go!" := by
  decide

/-- C1 (as amended): whatever the request (path, headers, body), the greeting handler
`hello` leaves a response with status 200; for every method other than `HEAD` its body is
exactly the text "hello from go!", nothing before or after it, and for `HEAD` the body is
empty. -/
theorem hello_greets (r : Request) :
    (hello (ResponseWriter.new r.Method) r).Code = 200 ∧
      (r.Method ≠ "HEAD" →
        (hello (ResponseWriter.new r.Method) r).body = "hello from go!") ∧
      (r.Method = "HEAD" → (hello (ResponseWriter.new r.Method) r).body = "") := by
  simp only [hello, Write_new]
  refine ⟨rfl, ?_, ?_⟩
  · intro hm
    simp [hm]
  · intro hm
    simp [hm]

/-- Witness of C1 (as amended): a `POST` request with a header and a body. -/
theorem hello_greets_witness :
    (⟨"POST", "/", [("Accept", "text/html")], "x=1"⟩ : Request).Method ≠ "HEAD" ∧
      (hello (ResponseWriter.new "POST") ⟨"POST", "/", [("Accept", "text/html")], "x=1"⟩).Code
        = 200 ∧
      (hello (ResponseWriter.new "POST") ⟨"POST", "/", [("Accept", "text/html")], "x=1"⟩).body
        = "hello from go!" := by
  have h := hello_greets ⟨"POST", "/", [("Accept", "text/html")], "x=1"⟩
  exact ⟨by decide, h.1, h.2.1 (by decide)⟩

/-- C2 as stated fails: in the happy-path world the lookup succeeds with the London record,
whose JSON encoding is the London text, yet the body of the answer to `GET /weather/London`
is that text followed by a newline, and the body of the answer to `HEAD /weather/London` is
empty. -/
theorem weather_success_body_not_encoding :
    query okWorld tableJSON "London" [] = ((londonData, none), londonEvents) ∧
      marshalWeather tableJSON londonData = (londonText, none) ∧
      observe (weatherHandler okWorld tableJSON (ResponseWriter.new "GET")
          ⟨"GET", "/weather/London", [], ""⟩)
        = some (200, "application/json; charset=utf-8", londonText ++ "\n") ∧
      londonText ++ "\n" ≠ londonText ∧
      observe (weatherHandler okWorld tableJSON (ResponseWriter.new "HEAD")
          ⟨"HEAD", "/weather/London", [], ""⟩)
        = some (200, "application/json; charset=utf-8", "") := by
  decide

/-- C2 (as amended): when the lookup for the city of the request succeeds with record `d`,
the weather handler answers with status 200 and the header `Content-Type: application/json;
charset=utf-8`.  For every method other than `HEAD` the body is the JSON encoding of `d`
followed by one newline, the encoding being the object with `d`'s name under `name` and
`d`'s temperature under `main.temp`; for `HEAD` the body is empty, and so it is for a
temperature that has no JSON number, the error of the encoder being dropped. -/
theorem weather_success_json (W : World) (J : JSON) (r : Request) (city : String)
    (d : weatherData) (tr : List Event)
    (hcity : (SplitN r.Path "/" 3)[2]? = some city)
    (hq : query W J city [] = ((d, none), tr)) :
    (observe (weatherHandler W J (ResponseWriter.new r.Method) r)).map
          (fun o => (o.1, o.2.1))
        = some (200, "application/json; charset=utf-8") ∧
      (r.Method ≠ "HEAD" → ∀ t, J.number d.Main.Kelvin = (t, none) →
        observe (weatherHandler W J (ResponseWriter.new r.Method) r)
          = some (200, "application/json; charset=utf-8",
              "\x7b\"name\":" ++ J.quote d.Name ++ ",\"main\":\x7b\"temp\":" ++ t
                ++ "\x7d\x7d" ++ "\n")) ∧
      (r.Method = "HEAD" →
        observe (weatherHandler W J (ResponseWriter.new r.Method) r)
          = some (200, "application/json; charset=utf-8", "")) ∧
      (∀ t e, J.number d.Main.Kelvin = (t, some e) →
        observe (weatherHandler W J (ResponseWriter.new r.Method) r)
          = some (200, "application/json; charset=utf-8", "")) := by
  have ho := observe_success W J r city d tr hcity hq
  refine ⟨?_, ?_, ?_, ?_⟩
  · rw [ho]
    rfl
  · intro hm t hn
    rw [ho]
    simp [marshalWeather, hn, hm]
  · intro hm
    rw [ho]
    split <;> simp [hm]
  · intro t e hn
    rw [ho]
    simp [marshalWeather, hn]

/-- Witness of C2 (as amended): the happy-path world, `GET /weather/London`. -/
theorem weather_success_json_witness :
    (SplitN (getRequest "/weather/London").Path "/" 3)[2]? = some "London" ∧
      query okWorld tableJSON "London" [] = ((londonData, none), londonEvents) ∧
      (getRequest "/weather/London").Method ≠ "HEAD" ∧
      tableJSON.number londonData.Main.Kelvin = ("280.32", none) ∧
      observe (weatherHandler okWorld tableJSON
          (ResponseWriter.new (getRequest "/weather/London").Method)
          (getRequest "/weather/London"))
        = some (200, "application/json; charset=utf-8",
            "\x7b\"name\":" ++ tableJSON.quote londonData.Name ++ ",\"main\":\x7b\"temp\":"
              ++ "280.32" ++ "\x7d\x7d" ++ "\n") :=
  ⟨by decide, by decide, by decide, by decide,
    (weather_success_json okWorld tableJSON (getRequest "/weather/London") "London" londonData
      londonEvents (by decide) (by decide)).2.1 (by decide) "280.32" (by decide)⟩

/-- C3 as stated fails: with the config file missing, the lookup fails with the file-read
error, and the body of the 500 answer to a `GET` is that error's message followed by a
newline, not the message; the body of the 500 answer to a `HEAD` is empty. -/
theorem weather_failure_body_not_raw :
    query noFileWorld tableJSON "London" []
        = ((weatherData.zero, some errNoFile), [Event.readFile ".apiConfig"]) ∧
      observe (weatherHandler noFileWorld tableJSON (ResponseWriter.new "GET")
          ⟨"GET", "/weather/London", [], ""⟩)
        = some (500, "text/plain; charset=utf-8",
            "open .apiConfig: no such file or directory\n") ∧
      "open .apiConfig: no such file or directory\n" ≠ errNoFile.Error ∧
      observe (weatherHandler noFileWorld tableJSON (ResponseWriter.new "HEAD")
          ⟨"HEAD", "/weather/London", [], ""⟩)
        = some (500, "text/plain; charset=utf-8", "") ∧
      "" ≠ errNoFile.Error := by
  decide

/-- C3 (as amended): when the lookup for the city of the request fails with error `e`, of
whichever kind, the weather handler answers with status 500; for every method other than
`HEAD` its body is the raw message of `e` followed by one newline, and for `HEAD` it is
empty.  No JSON record is written, and the response is the one `http.Error` forms from the
message alone, the same for all kinds. -/
theorem weather_failure_500 (W : World) (J : JSON) (r : Request) (city : String)
    (d : weatherData) (e : GoError) (tr : List Event)
    (hcity : (SplitN r.Path "/" 3)[2]? = some city)
    (hq : query W J city [] = ((d, some e), tr)) :
    weatherHandler W J (ResponseWriter.new r.Method) r
        = Except.ok (Error (ResponseWriter.new r.Method) e.msg StatusInternalServerError,
            tr) ∧
      (r.Method ≠ "HEAD" →
        observe (weatherHandler W J (ResponseWriter.new r.Method) r)
          = some (500, "text/plain; charset=utf-8", e.Error ++ "\n")) ∧
      (r.Method = "HEAD" →
        observe (weatherHandler W J (ResponseWriter.new r.Method) r)
          = some (500, "text/plain; charset=utf-8", "")) := by
  have ho := observe_failure W J r city d e tr hcity hq
  refine ⟨?_, ?_, ?_⟩
  · simp [weatherHandler, hcity, weatherRespond, hq, GoError.Error]
  · intro hm
    rw [ho]
    simp [hm]
  · intro hm
    rw [ho]
    simp [hm]

/-- Witness of C3 (as amended): the upstream cannot be reached, `GET /weather/London`. -/
theorem weather_failure_500_witness :
    (SplitN (getRequest "/weather/London").Path "/" 3)[2]? = some "London" ∧
      query downWorld tableJSON "London" []
        = ((weatherData.zero, some errNoRoute), londonEvents) ∧
      (getRequest "/weather/London").Method ≠ "HEAD" ∧
      observe (weatherHandler downWorld tableJSON
          (ResponseWriter.new (getRequest "/weather/London").Method)
          (getRequest "/weather/London"))
        = some (500, "text/plain; charset=utf-8", errNoRoute.Error ++ "\n") :=
  ⟨by decide, by decide, by decide,
    (weather_failure_500 downWorld tableJSON (getRequest "/weather/London") "London"
      weatherData.zero errNoRoute londonEvents (by decide) (by decide)).2.1 (by decide)⟩

/-- C4 as stated fails: in the happy-path world, with the JSON library modelled, the London
text decodes into the London record and that record encodes as the same text, yet the body
of the answer to `GET /weather/London` is the text followed by a newline, not the text. -/
theorem london_body_is_not_exact :
    (goJSON faultText).decodeWeather londonText weatherData.zero = (londonData, none) ∧
      marshalWeather (goJSON faultText) londonData = (londonText, none) ∧
      observe (weatherHandler okWorld (goJSON faultText) (ResponseWriter.new "GET")
          (getRequest "/weather/London"))
        = some (200, "application/json; charset=utf-8", londonText ++ "\n") ∧
      londonText ++ "\n" ≠ londonText := by
  decide

/-- C4 (as amended): given a config file that loads and an upstream whose body is the London
text, `GET /weather/London` answers with status 200 and a body that is exactly that text
followed by one newline: decoding the upstream body gives the record London, 280.32, and
encoding that record gives the upstream text back, which the encoder ends with a newline. -/
theorem london_roundtrip_response (say : JSONFault → String) (W : World)
    (cfg : apiConfigData) (resp : Response) (evs : List Event)
    (hload : loadApiConfig W (goJSON say) ".apiConfig" [] = ((cfg, none), evs))
    (hget : W.Get (weatherURL cfg "London") = (resp, none))
    (hbody : resp.Body = londonText) :
    (goJSON say).decodeWeather resp.Body weatherData.zero = (londonData, none) ∧
      marshalWeather (goJSON say) londonData = (resp.Body, none) ∧
      observe (weatherHandler W (goJSON say) (ResponseWriter.new "GET")
          (getRequest "/weather/London"))
        = some (200, "application/json; charset=utf-8", resp.Body ++ "\n") := by
  have hdec : (goJSON say).decodeWeather londonText weatherData.zero = (londonData, none) := by
    simp only [goJSON, decode_london, Option.map_none']
  have hm := marshal_london say
  have hq : query W (goJSON say) "London" []
      = ((londonData, none), evs ++ [Event.httpGet (weatherURL cfg "London")]) := by
    simp [query, hload, hget, hbody, hdec]
  have hs : (SplitN (getRequest "/weather/London").Path "/" 3)[2]? = some "London" := by
    decide
  have ho := observe_success W (goJSON say) (getRequest "/weather/London") "London"
    londonData _ hs hq
  rw [hbody]
  refine ⟨hdec, hm, ?_⟩
  have hg : (getRequest "/weather/London").Method = "GET" := rfl
  rw [hg] at ho
  rw [ho, hm]
  decide

/-- Witness of C4 (as amended): the happy-path world, its config file read by the model of
`json.Unmarshal`. -/
theorem london_roundtrip_response_witness :
    loadApiConfig okWorld (goJSON faultText) ".apiConfig" []
        = ((⟨"k123"⟩, none), [Event.readFile ".apiConfig"]) ∧
      okWorld.Get (weatherURL ⟨"k123"⟩ "London") = (⟨200, londonText⟩, none) ∧
      (⟨200, londonText⟩ : Response).Body = londonText ∧
      ((goJSON faultText).decodeWeather (⟨200, londonText⟩ : Response).Body weatherData.zero
        = (londonData, none) ∧
      marshalWeather (goJSON faultText) londonData
        = ((⟨200, londonText⟩ : Response).Body, none) ∧
      observe (weatherHandler okWorld (goJSON faultText) (ResponseWriter.new "GET")
          (getRequest "/weather/London"))
        = some (200, "application/json; charset=utf-8",
            (⟨200, londonText⟩ : Response).Body ++ "\n")) :=
  ⟨by decide, by decide, by decide,
    london_roundtrip_response faultText okWorld ⟨"k123"⟩ ⟨200, londonText⟩
      [Event.readFile ".apiConfig"] (by decide) (by decide) (by decide)⟩

/-- C5 as stated fails: with the config file missing, the answer to `HEAD /weather/London`
has status 500 and an empty body. -/
theorem missing_config_head_empty_body :
    noFileWorld.ReadFile ".apiConfig" = ("", some errNoFile) ∧
      observe (weatherHandler noFileWorld tableJSON (ResponseWriter.new "HEAD")
          ⟨"HEAD", "/weather/" ++ "London", [], ""⟩)
        = some (500, "text/plain; charset=utf-8", "") := by
  decide

/-- C5 (as amended): for every city, when reading ".apiConfig" fails with error `e`,
`loadApiConfig` fails with `e`, `query` returns `e` (after nothing but the attempt to read
the file), and the weather endpoint answers with status 500; for every method other than
`HEAD` the body is the message of `e` followed by a newline, which is not empty, and for
`HEAD` the body is empty. -/
theorem missing_config_500 (W : World) (J : JSON) (city bytes : String) (e : GoError)
    (m : String) (h : List (String × String)) (b : String)
    (hread : W.ReadFile ".apiConfig" = (bytes, some e)) :
    loadApiConfig W J ".apiConfig" []
        = ((apiConfigData.zero, some e), [Event.readFile ".apiConfig"]) ∧
      query W J city [] = ((weatherData.zero, some e), [Event.readFile ".apiConfig"]) ∧
      (observe (weatherHandler W J (ResponseWriter.new m)
          ⟨m, "/weather/" ++ city, h, b⟩)).map (fun o => o.1) = some 500 ∧
      (m ≠ "HEAD" →
        observe (weatherHandler W J (ResponseWriter.new m) ⟨m, "/weather/" ++ city, h, b⟩)
          = some (500, "text/plain; charset=utf-8", e.Error ++ "\n") ∧
        e.Error ++ "\n" ≠ "") ∧
      (m = "HEAD" →
        observe (weatherHandler W J (ResponseWriter.new m) ⟨m, "/weather/" ++ city, h, b⟩)
          = some (500, "text/plain; charset=utf-8", "")) := by
  have hl : loadApiConfig W J ".apiConfig" []
      = ((apiConfigData.zero, some e), [Event.readFile ".apiConfig"]) := by
    simp [loadApiConfig, hread]
  have hq : query W J city []
      = ((weatherData.zero, some e), [Event.readFile ".apiConfig"]) := by
    simp [query, hl]
  have hs : (SplitN (⟨m, "/weather/" ++ city, h, b⟩ : Request).Path "/" 3)[2]? = some city := by
    simp [SplitN_weather]
  have ho := observe_failure W J ⟨m, "/weather/" ++ city, h, b⟩ city _ e _ hs hq
  simp only at ho
  refine ⟨hl, hq, ?_, ?_, ?_⟩
  · rw [ho]
    rfl
  · intro hm
    rw [ho]
    exact ⟨by simp [hm], append_newline_ne_empty _⟩
  · intro hm
    rw [ho]
    simp [hm]

/-- Witness of C5 (as amended): the world without a config file, `GET /weather/London`. -/
theorem missing_config_500_witness :
    noFileWorld.ReadFile ".apiConfig" = ("", some errNoFile) ∧
      ("GET" : String) ≠ "HEAD" ∧
      query noFileWorld tableJSON "London" []
        = ((weatherData.zero, some errNoFile), [Event.readFile ".apiConfig"]) ∧
      observe (weatherHandler noFileWorld tableJSON (ResponseWriter.new "GET")
          ⟨"GET", "/weather/" ++ "London", [], ""⟩)
        = some (500, "text/plain; charset=utf-8", errNoFile.Error ++ "\n") ∧
      errNoFile.Error ++ "\n" ≠ "" := by
  have h := missing_config_500 noFileWorld tableJSON "London" "" errNoFile "GET" [] ""
    (by decide)
  exact ⟨by decide, by decide, h.2.1, h.2.2.2.1 (by decide)⟩

/-- C7 as stated fails: for the city "a&b=c#d e/f" the string handed to `http.Get` holds
the whole city, but the URL requested upstream stops before the "#", its query string ending
in "q=a&b=c"; and for a city with a line feed `http.Get` fails before any request. -/
theorem fragment_is_not_requested :
    (query okWorld tableJSON "a&b=c#d e/f" []).2
        = [Event.readFile ".apiConfig",
            Event.httpGet
              "http://api.openweathermap.org/data/2.5/weather?APPID=k123&q=a&b=c#d e/f"] ∧
      requestedURL "http://api.openweathermap.org/data/2.5/weather?APPID=k123&q=a&b=c#d e/f"
        = some "http://api.openweathermap.org/data/2.5/weather?APPID=k123&q=a&b=c" ∧
      requestedURL "http://api.openweathermap.org/data/2.5/weather?APPID=k123&q=a&b=c#d e/f"
        ≠ some "http://api.openweathermap.org/data/2.5/weather?APPID=k123&q=a&b=c#d e/f" ∧
      requestedURL "http://api.openweathermap.org/data/2.5/weather?APPID=k123&q=a\nb"
        = none := by
  decide

/-- C7 (as amended): for every loaded API key `k` and every city string `c`, whatever
characters it holds, the one string `query c` hands to `http.Get` is exactly
"http://api.openweathermap.org/data/2.5/weather?APPID=" ++ k ++ "&q=" ++ c, also for the path
"/weather/" ++ c: the handler hands `c` over unescaped and unmodified.  When `k` and `c`
hold no "#" and no control character ("&", "=", blanks and "/" allowed), that string
is also the URL requested upstream, the city standing unescaped in its query string. -/
theorem query_url_unescaped (W : World) (J : JSON) (k c : String)
    (m : String) (h : List (String × String)) (b : String)
    (hload : (loadApiConfig W J ".apiConfig" []).1 = (⟨k⟩, none)) :
    (query W J c []).2
        = [Event.readFile ".apiConfig",
            Event.httpGet ("http://api.openweathermap.org/data/2.5/weather?APPID=" ++ k
              ++ "&q=" ++ c)] ∧
      events (weatherHandler W J (ResponseWriter.new m) ⟨m, "/weather/" ++ c, h, b⟩)
        = some [Event.readFile ".apiConfig",
            Event.httpGet ("http://api.openweathermap.org/data/2.5/weather?APPID=" ++ k
              ++ "&q=" ++ c)] ∧
      ('#' ∉ k.data → '#' ∉ c.data →
        stringContainsCTLByte k.data = false → stringContainsCTLByte c.data = false →
        requestedURL ("http://api.openweathermap.org/data/2.5/weather?APPID=" ++ k
            ++ "&q=" ++ c)
          = some ("http://api.openweathermap.org/data/2.5/weather?APPID=" ++ k
            ++ "&q=" ++ c)) := by
  have htr : (loadApiConfig W J ".apiConfig" []).2 = [Event.readFile ".apiConfig"] := by
    simp only [loadApiConfig]
    split
    · rfl
    · split <;> rfl
  have hl : loadApiConfig W J ".apiConfig" [] = ((⟨k⟩, none), [Event.readFile ".apiConfig"]) := by
    rw [← hload, ← htr]
  have hq : (query W J c []).2
      = [Event.readFile ".apiConfig",
          Event.httpGet ("http://api.openweathermap.org/data/2.5/weather?APPID=" ++ k
            ++ "&q=" ++ c)] := by
    simp only [query, hl, weatherURL]
    split
    · rfl
    · split <;> rfl
  refine ⟨hq, ?_, ?_⟩
  · rw [weatherHandler_weather]
    simp only [events, weatherRespond]
    split <;> simp_all
  · intro hk hc hkc hcc
    exact requestedURL_plain _ _ hk hc hkc hcc

/-- Witness of C7 (as amended): a city with the characters "&", "=", a blank and "/". -/
theorem query_url_unescaped_witness :
    (loadApiConfig okWorld tableJSON ".apiConfig" []).1 = (⟨"k123"⟩, none) ∧
      '#' ∉ ("k123" : String).data ∧ '#' ∉ ("a&b=c d/e" : String).data ∧
      stringContainsCTLByte ("k123" : String).data = false ∧
      stringContainsCTLByte ("a&b=c d/e" : String).data = false ∧
      (query okWorld tableJSON "a&b=c d/e" []).2
        = [Event.readFile ".apiConfig",
            Event.httpGet ("http://api.openweathermap.org/data/2.5/weather?APPID=" ++ "k123"
              ++ "&q=" ++ "a&b=c d/e")] ∧
      events (weatherHandler okWorld tableJSON (ResponseWriter.new "GET")
          ⟨"GET", "/weather/" ++ "a&b=c d/e", [], ""⟩)
        = some [Event.readFile ".apiConfig",
            Event.httpGet ("http://api.openweathermap.org/data/2.5/weather?APPID=" ++ "k123"
              ++ "&q=" ++ "a&b=c d/e")] ∧
      requestedURL ("http://api.openweathermap.org/data/2.5/weather?APPID=" ++ "k123"
          ++ "&q=" ++ "a&b=c d/e")
        = some ("http://api.openweathermap.org/data/2.5/weather?APPID=" ++ "k123"
          ++ "&q=" ++ "a&b=c d/e") := by
  have h := query_url_unescaped okWorld tableJSON "k123" "a&b=c d/e" "GET" [] "" (by decide)
  exact ⟨by decide, by decide, by decide, by decide, by decide, h.1, h.2.1,
    h.2.2 (by decide) (by decide) (by decide) (by decide)⟩

/-- C9 as stated fails: for the path "/weather/London/uk" the third piece of
`SplitN(path, "/", 3)` is "London/uk", not "London", and "London/uk" is what the lookup
asks the upstream for. -/
theorem city_is_not_third_segment :
    SplitN "/weather/London/uk" "/" 3 = ["", "weather", "London/uk"] ∧
      (SplitN "/weather/London/uk" "/" 3)[2]? ≠ some "London" ∧
      events (weatherHandler okWorld tableJSON (ResponseWriter.new "GET")
          (getRequest "/weather/London/uk"))
        = some [Event.readFile ".apiConfig",
            Event.httpGet
              "http://api.openweathermap.org/data/2.5/weather?APPID=k123&q=London/uk"] := by
  decide

/-- C9 (as amended): for every path made of a first piece `a` and a second piece `b`, both
free of "/", each followed by "/", and a rest, the city handed to the lookup is the whole
rest: the text from after the second "/" to the end of the path, further "/" included (for
/weather/London/uk the city is London/uk). -/
theorem city_is_rest_of_path (W : World) (J : JSON) (w : ResponseWriter)
    (a b rest : String) (m : String) (h : List (String × String)) (body : String)
    (ha : '/' ∉ a.data) (hb : '/' ∉ b.data) :
    (SplitN (a ++ "/" ++ b ++ "/" ++ rest) "/" 3)[2]? = some rest ∧
      weatherHandler W J w ⟨m, a ++ "/" ++ b ++ "/" ++ rest, h, body⟩
        = Except.ok (weatherRespond W J w rest) := by
  have hs := SplitN_slash_three a b rest ha hb
  constructor
  · rw [hs]
    rfl
  · simp [weatherHandler, hs]

/-- Witness of C9 (as amended): the path "/weather/London/uk". -/
theorem city_is_rest_of_path_witness :
    '/' ∉ ("" : String).data ∧ '/' ∉ ("weather" : String).data ∧
      ((SplitN ("" ++ "/" ++ "weather" ++ "/" ++ "London/uk") "/" 3)[2]? = some "London/uk" ∧
      weatherHandler okWorld tableJSON (ResponseWriter.new "GET")
          ⟨"GET", "" ++ "/" ++ "weather" ++ "/" ++ "London/uk", [], ""⟩
        = Except.ok (weatherRespond okWorld tableJSON (ResponseWriter.new "GET") "London/uk")) :=
  ⟨by decide, by decide,
    city_is_rest_of_path okWorld tableJSON (ResponseWriter.new "GET") "" "weather" "London/uk"
      "GET" [] "" (by decide) (by decide)⟩

/-- C10: for every path "/weather/" ++ c, `c` empty included, `SplitN(path, "/", 3)` has
exactly three elements, so the index 2 is in bounds, the handler does not panic and the city
is `c` exactly; for a path with fewer than two "/" the result has fewer than three elements
and the index 2 is out of range: the handler panics. -/
theorem split_index_in_bounds (W : World) (J : JSON) (w : ResponseWriter) (c path : String)
    (m : String) (h : List (String × String)) (b : String) :
    ((SplitN ("/weather/" ++ c) "/" 3).length = 3 ∧
        (SplitN ("/weather/" ++ c) "/" 3)[2]? = some c ∧
        weatherHandler W J w ⟨m, "/weather/" ++ c, h, b⟩
          = Except.ok (weatherRespond W J w c)) ∧
      (path.data.count '/' < 2 →
        (SplitN path "/" 3).length < 3 ∧ (SplitN path "/" 3)[2]? = none ∧
        weatherHandler W J w ⟨m, path, h, b⟩
          = Except.error (Panic.indexOutOfRange 2 (SplitN path "/" 3).length)) := by
  constructor
  · refine ⟨?_, ?_, weatherHandler_weather W J w m h b c⟩
    · rw [SplitN_weather]
      rfl
    · rw [SplitN_weather]
      rfl
  · intro hc
    have hlen : (SplitN path "/" 3).length < 3 := by
      rw [SplitN_slash_length]
      omega
    have hnone : (SplitN path "/" 3)[2]? = none := by
      apply List.getElem?_eq_none
      omega
    refine ⟨hlen, hnone, ?_⟩
    simp [weatherHandler, hnone]

/-- Witness of C10: the city "" (path "/weather/") and the path "/weather", which has one
"/" only. -/
theorem split_index_in_bounds_witness :
    ("/weather" : String).data.count '/' < 2 ∧
      (SplitN ("/weather/" ++ "") "/" 3).length = 3 ∧
      (SplitN ("/weather/" ++ "") "/" 3)[2]? = some "" ∧
      (SplitN "/weather" "/" 3).length < 3 ∧
      weatherHandler okWorld tableJSON (ResponseWriter.new "GET") ⟨"GET", "/weather", [], ""⟩
        = Except.error (Panic.indexOutOfRange 2 (SplitN "/weather" "/" 3).length) := by
  have h := split_index_in_bounds okWorld tableJSON (ResponseWriter.new "GET") "" "/weather"
    "GET" [] ""
  have h2 := h.2 (by decide)
  exact ⟨by decide, h.1.1, h.1.2.1, h2.1, h2.2.2⟩

end GoWeather
